import Mathlib

/-!
Shallow embedding of the OIX classifieds core (src/script.js): the listing
query/filter engine (`useAds`), the favorites ledger (`toggleFavorite` and the
favorites snapshot), the join (`adsWithFavorites`), the posting pipeline
(`PostAdForm.handleSubmit` / `postAd`), and the delete path (`deleteAd` guarded
by the owner check in `AdDetails`).

JavaScript objects holding the favorites record (`adIds`) are modelled as
association lists from string keys to JavaScript values; property read,
property assignment and `delete` mirror the first-occurrence semantics of a
JS object with unique keys (the operations keep uniqueness, and all lemmas are
stated point-wise through `jsGet` so duplicate keys need no side condition).
Machine numbers are modelled as `Int` (timestamps, prices in the query engine)
and `Rat` (the `parseFloat` result in the posting pipeline).
-/

/-- A JavaScript value as far as this program stores or tests them:
booleans, strings and numbers. Enough to distinguish truthiness
(`if (currentFavorites[adId])`) from strict equality (`=== true`). -/
inductive JsVal where
  | bool (b : Bool)
  | str (s : String)
  | num (n : Int)
deriving DecidableEq, Repr

/-- JS truthiness of a value: `false`, the empty string and `0` are falsy. -/
def JsVal.truthy : JsVal → Bool
  | .bool b => b
  | .str s => !(s == "")
  | .num n => !(n == 0)

/-- Truthiness of an optional property: a missing property (`undefined`) is falsy. -/
def jsTruthy : Option JsVal → Bool
  | none => false
  | some v => v.truthy

/-- Strict-equality test `v === true` on an optional property. -/
def jsIsTrue : Option JsVal → Bool
  | none => false
  | some v => v == JsVal.bool true

/-- The favorites record body (`adIds`): a JS object from ad id to value. -/
def FavMap : Type := List (String × JsVal)

instance : DecidableEq FavMap := by
  unfold FavMap
  exact inferInstance

/-- Property read `obj[key]`: first entry with the key, `undefined` if none. -/
def jsGet : FavMap → String → Option JsVal
  | [], _ => none
  | (k, v) :: t, key => if k = key then some v else jsGet t key

/-- Property deletion `delete obj[key]`. -/
def delKey : FavMap → String → FavMap
  | [], _ => []
  | (k, v) :: t, key => if k = key then delKey t key else (k, v) :: delKey t key

/-- Property assignment `obj[key] = v`: overwrite in place if present, else append. -/
def setKey : FavMap → String → JsVal → FavMap
  | [], key, v => [(key, v)]
  | (k, w) :: t, key, v => if k = key then (k, v) :: t else (k, w) :: setKey t key v

/-- Key set of the record, i.e. the favorites membership set it represents. -/
def favKeys (m : FavMap) : List String := m.map (fun kv => kv.1)

/-- Every stored value is literally the boolean `true`
(the representation the spec describes: a mapping to a boolean-true marker). -/
def allTrueB (m : FavMap) : Bool := m.all (fun kv => kv.2 == JsVal.bool true)

/-- Reading the stored favorites state: `docSnap.exists() ? (docSnap.data().adIds || {}) : {}`
— an absent record is the empty object. -/
def favRead (fav : Option FavMap) : FavMap := fav.getD []

/-- The transaction body of `toggleFavorite` (src/script.js lines 157-170):
truthy test on `currentFavorites[adId]`, then `delete` or assignment of `true`. -/
def toggleCore (current : FavMap) (adId : String) : FavMap :=
  if jsTruthy (jsGet current adId) then delKey current adId
  else setKey current adId (JsVal.bool true)

/-- `toggleFavorite(db, userId, adId)` acting on the stored favorites document.
The guard `if (!db || !userId) return;` makes it a no-op without a database
handle or an established identity; otherwise the transaction reads the record
(absent record read as the empty object) and writes back the flipped map.
No message of any kind is produced on either path. -/
def toggleFavoriteOp (db : Bool) (userId : Option String) (fav : Option FavMap)
    (adId : String) : Option FavMap × Option String :=
  if !db || userId.isNone then (fav, none)
  else (some (toggleCore (favRead fav) adId), none)

-- Basic lemmas on the object operations.

theorem jsGet_delKey (m : FavMap) (k k' : String) :
    jsGet (delKey m k) k' = if k' = k then none else jsGet m k' := by
  induction m with
  | nil => simp [delKey, jsGet]
  | cons hd t ih =>
      obtain ⟨a, v⟩ := hd
      by_cases hak : a = k
      · subst hak
        by_cases hk : k' = a
        · subst hk
          simp [delKey, jsGet, ih]
        · have hne : a ≠ k' := fun h => hk h.symm
          simp [delKey, jsGet, ih, hk, hne]
      · by_cases hk : a = k'
        · subst hk
          have hne : ¬(a = k) := hak
          simp [delKey, jsGet, hne]
        · simp [delKey, jsGet, hak, hk, ih]

theorem jsGet_setKey (m : FavMap) (k k' : String) (v : JsVal) :
    jsGet (setKey m k v) k' = if k' = k then some v else jsGet m k' := by
  induction m with
  | nil =>
      by_cases hk : k' = k
      · subst hk
        simp [setKey, jsGet]
      · have hne : k ≠ k' := fun h => hk h.symm
        simp [setKey, jsGet, hk, hne]
  | cons hd t ih =>
      obtain ⟨a, w⟩ := hd
      by_cases hak : a = k
      · subst hak
        by_cases hk : k' = a
        · subst hk
          simp [setKey, jsGet]
        · have hne : a ≠ k' := fun h => hk h.symm
          simp [setKey, jsGet, hk, hne]
      · by_cases hk : a = k'
        · subst hk
          have hne : ¬(a = k) := hak
          simp [setKey, jsGet, hne]
        · simp [setKey, jsGet, hak, hk, ih]

theorem allTrueB_jsGet {m : FavMap} (h : allTrueB m = true) {k : String} {v : JsVal}
    (hg : jsGet m k = some v) : v = JsVal.bool true := by
  induction m with
  | nil => simp [jsGet] at hg
  | cons hd t ih =>
      obtain ⟨a, w⟩ := hd
      simp only [allTrueB, List.all_cons, Bool.and_eq_true, beq_iff_eq] at h
      by_cases hak : a = k
      · simp only [jsGet, hak, if_true, Option.some.injEq] at hg
        rw [← hg]
        exact h.1
      · simp only [jsGet, hak, if_false] at hg
        exact ih h.2 hg

theorem allTrueB_delKey {m : FavMap} (h : allTrueB m = true) (k : String) :
    allTrueB (delKey m k) = true := by
  induction m with
  | nil => simp [delKey, allTrueB]
  | cons hd t ih =>
      obtain ⟨a, w⟩ := hd
      simp only [allTrueB, List.all_cons, Bool.and_eq_true] at h
      by_cases hak : a = k
      · simp only [delKey, hak, if_true]
        exact ih h.2
      · simp only [delKey, hak, if_false, allTrueB, List.all_cons, Bool.and_eq_true]
        exact ⟨h.1, ih h.2⟩

theorem allTrueB_setKey_true {m : FavMap} (h : allTrueB m = true) (k : String) :
    allTrueB (setKey m k (JsVal.bool true)) = true := by
  induction m with
  | nil => simp [setKey, allTrueB]
  | cons hd t ih =>
      obtain ⟨a, w⟩ := hd
      simp only [allTrueB, List.all_cons, Bool.and_eq_true] at h
      by_cases hak : a = k
      · simp only [setKey, hak, if_true, allTrueB, List.all_cons, Bool.and_eq_true]
        exact ⟨by simp, h.2⟩
      · simp only [setKey, hak, if_false, allTrueB, List.all_cons, Bool.and_eq_true]
        exact ⟨h.1, ih h.2⟩

-- String constants appearing in src/script.js.

/-- The category sentinel meaning no category restriction. -/
def allCategoriesSentinel : String := "All Categories"

/-- Default location substituted by `postAd` when the field is empty. -/
def unknownLocation : String := "Unknown"

/-- Placeholder image URL substituted by `handleSubmit` when the field is empty
(PRIMARY_COLOR with the `#` stripped). -/
def placeholderImage : String := "https://placehold.co/600x400/002f34/ffffff?text=OIX+Ad"

/-- Message set by `PostAdForm.handleSubmit` when no identity is established. -/
def loginErrorMsg : String := "Error: You must be logged in to post an ad."

/-- Message set by `PostAdForm.handleSubmit` after a successful post. -/
def postSuccessMsg : String := "Ad posted successfully! Redirecting..."

-- The listing data model and the query engine (`useAds`).

/-- A stored listing document, as read back by the ads snapshot
(`{ id: doc.id, ...doc.data() }`). Price and timestamp seconds are integers. -/
structure Ad where
  id : String
  title : String
  description : String
  location : String
  price : Int
  category : String
  userId : String
  imageUrl : String
  tsSeconds : Int
deriving DecidableEq, Repr

/-- The filter specification held in `queryState`. `search` is the raw string
(the empty string is the falsy, absent case, as in `!search`); the category is
absent (`undefined`) or a string; the price bounds are absent (empty field) or
the parsed integer. -/
structure QueryState where
  search : String
  category : Option String
  minPrice : Option Int
  maxPrice : Option Int
deriving DecidableEq, Repr

/-- The coarse predicate sent to the store: an optional category equality and
an optional price lower bound. -/
structure CoarseQuery where
  categoryEq : Option String
  priceGe : Option Int
deriving DecidableEq, Repr

/-- Construction of the store query from the filter specification
(src/script.js lines 97-112): `where('category','==',category)` is added when
the category is set and is not the sentinel; `where('price','>=',minPrice)`
is added when a minimum price is given. -/
def coarseQuery (qs : QueryState) : CoarseQuery :=
  { categoryEq :=
      match qs.category with
      | some c => if c = allCategoriesSentinel then none else some c
      | none => none
    priceGe := qs.minPrice }

/-- The store's evaluation of the coarse query on one document. -/
def runCoarse (cq : CoarseQuery) (ad : Ad) : Bool :=
  (match cq.categoryEq with
   | some c => ad.category == c
   | none => true) &&
  (match cq.priceGe with
   | some p => decide (p ≤ ad.price)
   | none => true)

/-- Whether `needle` occurs at the head of `hay`. -/
def leadMatch : List Char → List Char → Bool
  | [], _ => true
  | _ :: _, [] => false
  | a :: as, b :: bs => a == b && leadMatch as bs

/-- Whether `needle` occurs anywhere in `hay`. -/
def subMatch (needle : List Char) : List Char → Bool
  | [] => leadMatch needle []
  | c :: t => leadMatch needle (c :: t) || subMatch needle t

/-- JS `hay.includes(needle)`. -/
def jsIncludes (hay needle : String) : Bool := subMatch needle.data hay.data

/-- JS `s.toLowerCase()`: character-wise lowering. -/
def jsToLower (s : String) : String := String.mk (s.data.map Char.toLower)

/-- The client-side search test (src/script.js lines 122-125): an empty term
matches unconditionally, otherwise the lower-cased term must occur in the
lower-cased title, description or location. -/
def searchMatch (search : String) (ad : Ad) : Bool :=
  search == "" ||
    jsIncludes (jsToLower ad.title) (jsToLower search) ||
    jsIncludes (jsToLower ad.description) (jsToLower search) ||
    jsIncludes (jsToLower ad.location) (jsToLower search)

/-- The client-side maximum-price test (src/script.js line 127): an absent
maximum matches unconditionally. -/
def maxPriceMatch (maxPrice : Option Int) (ad : Ad) : Bool :=
  match maxPrice with
  | none => true
  | some p => decide (ad.price ≤ p)

/-- The fine predicate applied client-side: `searchMatch && maxPriceMatch`. -/
def finePred (qs : QueryState) (ad : Ad) : Bool :=
  searchMatch qs.search ad && maxPriceMatch qs.maxPrice ad

/-- Descending-timestamp order used by
`.sort((a, b) => b.timestamp.seconds - a.timestamp.seconds)`:
`a` may stay before `b` exactly when the comparator is non-positive. -/
def newestFirst (a b : Ad) : Prop := b.tsSeconds ≤ a.tsSeconds

instance : DecidableRel newestFirst := by
  unfold newestFirst
  exact fun a b => inferInstance

instance : IsTotal Ad newestFirst := ⟨fun a b => le_total b.tsSeconds a.tsSeconds⟩

instance : IsTrans Ad newestFirst := ⟨fun _ _ _ h1 h2 => le_trans h2 h1⟩

/-- The view produced by `useAds` for one snapshot emission: the store filters
the snapshot by the coarse query, the client filters by the fine predicate and
sorts by creation timestamp descending (src/script.js lines 114-132; JS
`Array.prototype.sort` is a stable sort by the comparator, modelled by a
stable sort under `newestFirst`). -/
def useAdsView (qs : QueryState) (snapshot : List Ad) : List Ad :=
  List.insertionSort newestFirst
    ((snapshot.filter (runCoarse (coarseQuery qs))).filter (finePred qs))

/-- The join (`adsWithFavorites`, src/script.js lines 139-144): each listing is
annotated with `isSaved: favorites[ad.id] === true`. -/
def adsWithFavorites (ads : List Ad) (favorites : FavMap) : List (Ad × Bool) :=
  ads.map (fun ad => (ad, jsIsTrue (jsGet favorites ad.id)))

/-- The dependency array of the ads-fetching effect (src/script.js line 136):
`[db, isAuthReady, userId, queryState.category, queryState.minPrice,
queryState.maxPrice, queryState.search]`. -/
structure EffectDeps where
  db : Bool
  isAuthReady : Bool
  userId : Option String
  category : Option String
  minPrice : Option Int
  maxPrice : Option Int
  search : String
deriving DecidableEq, Repr

/-- The dependency values of the ads-fetching effect for a given state: the
subscription is torn down and a fresh store query issued whenever any
component changes. -/
def adsEffectDeps (db : Bool) (isAuthReady : Bool) (userId : Option String)
    (qs : QueryState) : EffectDeps :=
  { db := db
    isAuthReady := isAuthReady
    userId := userId
    category := qs.category
    minPrice := qs.minPrice
    maxPrice := qs.maxPrice
    search := qs.search }

-- Deletion (`deleteAd`, guarded by the owner check in `AdDetails`).

/-- `deleteAd(db, adId)` (src/script.js lines 185-189): removes the document
with that id from the ads collection; no ownership check of its own. -/
def deleteAdStore (db : Bool) (store : List Ad) (adId : String) : List Ad :=
  if db then store.filter (fun ad => !(ad.id == adId)) else store

/-- Whether `AdDetails` renders the delete control (src/script.js line 487):
only when `userId === ad.userId`. -/
def deleteControlShown (userId : Option String) (ad : Ad) : Bool :=
  match userId with
  | some u => u == ad.userId
  | none => false

/-- The delete operation as available to an identity through the UI: the store
is mutated only if the delete control is rendered for that identity, since
`handleDelete` is reachable only through that control. -/
def uiDelete (userId : Option String) (store : List Ad) (ad : Ad) : List Ad :=
  if deleteControlShown userId ad then deleteAdStore true store ad.id else store

-- Posting (`PostAdForm.handleSubmit` and `postAd`).

/-- The posting form's state. `price` is the numeric value of the number input
as read by `parseFloat` (a rational, since `parseFloat` does not truncate). -/
structure AdFormData where
  title : String
  description : String
  price : Rat
  category : String
  location : String
  imageUrl : String
deriving DecidableEq, Repr

/-- A listing document as written by `postAd`. -/
structure PostedAd where
  title : String
  description : String
  price : Rat
  category : String
  location : String
  imageUrl : String
  userId : String
deriving DecidableEq, Repr

/-- `postAd(db, userId, adData)` (src/script.js lines 173-183): spreads the
payload, attaches the posting identity, and defaults an empty location to
`'Unknown'`. (The server timestamp is attached by the store.) -/
def postAd (userId : String) (fd : AdFormData) : PostedAd :=
  { title := fd.title
    description := fd.description
    price := fd.price
    category := fd.category
    location := if fd.location = "" then unknownLocation else fd.location
    imageUrl := fd.imageUrl
    userId := userId }

/-- `PostAdForm.handleSubmit` (src/script.js lines 516-538): without a database
handle or identity it sets an error message and returns before reaching the
store; otherwise it posts the form data with `parseFloat`-parsed price and a
placeholder image when the field is empty, and sets the success message. -/
def handleSubmit (db : Bool) (userId : Option String) (fd : AdFormData) :
    Option PostedAd × Option String :=
  match db, userId with
  | false, _ => (none, some loginErrorMsg)
  | true, none => (none, some loginErrorMsg)
  | true, some uid =>
      (some (postAd uid
        { fd with imageUrl := if fd.imageUrl = "" then placeholderImage else fd.imageUrl }),
       some postSuccessMsg)

/-- Constraint enforced by the price input element (src/script.js lines
579-587): `type="number"`, `required`, `min="0"` and the number input's
default step of 1 — a submittable value is a non-negative integer. -/
def priceInputOk (q : Rat) : Prop := 0 ≤ q ∧ q.den = 1

instance (q : Rat) : Decidable (priceInputOk q) := by
  unfold priceInputOk
  exact inferInstance

theorem jsGet_isSome_iff_mem_favKeys (m : FavMap) (k : String) :
    (jsGet m k).isSome = true ↔ k ∈ favKeys m := by
  induction m with
  | nil => simp [jsGet, favKeys]
  | cons hd t ih =>
      obtain ⟨a, v⟩ := hd
      by_cases hak : a = k
      · simp [jsGet, favKeys, hak]
      · simp only [jsGet, hak, if_false, favKeys, List.map_cons, List.mem_cons]
        unfold favKeys at ih
        rw [ih]
        constructor
        · exact fun h => Or.inr h
        · intro h
          cases h with
          | inl h => exact absurd h.symm hak
          | inr h => exact h

-- Further helper lemmas.

theorem jsIsTrue_eq_isSome {m : FavMap} (h : allTrueB m = true) (k : String) :
    jsIsTrue (jsGet m k) = (jsGet m k).isSome := by
  cases hg : jsGet m k with
  | none => simp [jsIsTrue]
  | some v =>
      have hv := allTrueB_jsGet h hg
      simp [jsIsTrue, hv]

theorem jsIsTrue_eq_mem {m : FavMap} (h : allTrueB m = true) (k : String) :
    jsIsTrue (jsGet m k) = decide (k ∈ favKeys m) := by
  rw [jsIsTrue_eq_isSome h]
  by_cases hk : k ∈ favKeys m
  · have := (jsGet_isSome_iff_mem_favKeys m k).mpr hk
    simp [this, hk]
  · have : ¬((jsGet m k).isSome = true) := fun hs =>
      hk ((jsGet_isSome_iff_mem_favKeys m k).mp hs)
    simp only [Bool.not_eq_true] at this
    simp [this, hk]

theorem toggleCore_of_absent {m : FavMap} {adId : String}
    (hg : jsGet m adId = none) :
    toggleCore m adId = setKey m adId (JsVal.bool true) := by
  unfold toggleCore
  simp [hg, jsTruthy]

theorem toggleCore_of_true {m : FavMap} {adId : String}
    (hg : jsGet m adId = some (JsVal.bool true)) :
    toggleCore m adId = delKey m adId := by
  unfold toggleCore
  simp [hg, jsTruthy, JsVal.truthy]

theorem toggleCore_involutive {m : FavMap} (h : allTrueB m = true) (adId k : String) :
    jsGet (toggleCore (toggleCore m adId) adId) k = jsGet m k := by
  cases hg : jsGet m adId with
  | none =>
      rw [toggleCore_of_absent hg]
      have h1 : jsGet (setKey m adId (JsVal.bool true)) adId = some (JsVal.bool true) := by
        rw [jsGet_setKey]
        simp
      rw [toggleCore_of_true h1, jsGet_delKey]
      by_cases hk : k = adId
      · rw [if_pos hk, hk, hg]
      · rw [if_neg hk, jsGet_setKey, if_neg hk]
  | some v =>
      have hv := allTrueB_jsGet h hg
      subst hv
      rw [toggleCore_of_true hg]
      have h1 : jsGet (delKey m adId) adId = none := by
        rw [jsGet_delKey]
        simp
      rw [toggleCore_of_absent h1, jsGet_setKey]
      by_cases hk : k = adId
      · rw [if_pos hk, hk, hg]
      · rw [if_neg hk, jsGet_delKey, if_neg hk]

theorem toggleFavoriteOp_authed (uid : String) (fav : Option FavMap) (adId : String) :
    toggleFavoriteOp true (some uid) fav adId
      = (some (toggleCore (favRead fav) adId), none) := by
  unfold toggleFavoriteOp
  simp

-- Concrete fixtures used by the witnesses and counterexamples.

/-- Example identity. -/
def uidEx : String := "user-one"

/-- A second, distinct identity. -/
def otherUid : String := "user-two"

/-- Example listing identifier. -/
def adIdEx : String := "ad-1"

/-- A second listing identifier. -/
def adIdEx2 : String := "ad-2"

/-- Example favorites record: both values are the boolean-true marker. -/
def favEx : FavMap := [(adIdEx, JsVal.bool true), (adIdEx2, JsVal.bool true)]

/-- Example category string. -/
def catElectronics : String := "Electronics"

/-- Example listing owned by `uidEx`. -/
def adEx : Ad :=
  { id := adIdEx
    title := "iPhone 12 for sale"
    description := "Gently used phone"
    location := "Lahore"
    price := 5000
    category := catElectronics
    userId := uidEx
    imageUrl := ""
    tsSeconds := 100 }

/-- A second listing, older and cheaper. -/
def adEx2 : Ad :=
  { id := adIdEx2
    title := "Math books"
    description := "Set of textbooks"
    location := "Karachi"
    price := 300
    category := "Books"
    userId := otherUid
    imageUrl := ""
    tsSeconds := 50 }

/-- Example filter specification. -/
def qsEx : QueryState :=
  { search := "phone"
    category := some catElectronics
    minPrice := some 1000
    maxPrice := some 10000 }

/-- The same filter specification with only the maximum price changed. -/
def qsExLowMax : QueryState := { qsEx with maxPrice := some 4000 }

/-- Example form data for the posting pipeline. -/
def fdEx : AdFormData :=
  { title := "iPhone 12 for sale"
    description := "Gently used phone"
    price := 5000
    category := catElectronics
    location := "Lahore"
    imageUrl := "" }

-- Claim theorems.

/-- C2: for every identity and listing identifier, the toggle operation flips
membership of that identifier in the identity's stored favorites record (an
absent record is read as the empty set): the identifier is added (mapped to
the boolean-true marker) if absent and removed if present, and every other
key of the written-back record is unchanged. Stated over records whose values
are all boolean-true markers — the representation the program itself
maintains. -/
theorem toggleFavorite_flips_membership (uid : String) (fav : Option FavMap)
    (adId : String) (h : allTrueB (favRead fav) = true) :
    (jsGet (favRead fav) adId = none →
      jsGet (favRead (toggleFavoriteOp true (some uid) fav adId).1) adId
        = some (JsVal.bool true)) ∧
    ((jsGet (favRead fav) adId).isSome = true →
      jsGet (favRead (toggleFavoriteOp true (some uid) fav adId).1) adId = none) ∧
    (∀ k, k ≠ adId →
      jsGet (favRead (toggleFavoriteOp true (some uid) fav adId).1) k
        = jsGet (favRead fav) k) := by
  rw [toggleFavoriteOp_authed]
  refine ⟨?_, ?_, ?_⟩
  · intro hg
    rw [show favRead (some (toggleCore (favRead fav) adId)) = toggleCore (favRead fav) adId from rfl]
    rw [toggleCore_of_absent hg, jsGet_setKey]
    simp
  · intro hs
    obtain ⟨v, hv⟩ := Option.isSome_iff_exists.mp hs
    have hvt := allTrueB_jsGet h hv
    subst hvt
    rw [show favRead (some (toggleCore (favRead fav) adId)) = toggleCore (favRead fav) adId from rfl]
    rw [toggleCore_of_true hv, jsGet_delKey]
    simp
  · intro k hk
    rw [show favRead (some (toggleCore (favRead fav) adId)) = toggleCore (favRead fav) adId from rfl]
    cases hg : jsGet (favRead fav) adId with
    | none =>
        rw [toggleCore_of_absent hg, jsGet_setKey, if_neg hk]
    | some v =>
        have hvt := allTrueB_jsGet h hg
        subst hvt
        rw [toggleCore_of_true hg, jsGet_delKey, if_neg hk]

/-- Witness for C2: toggling `ad-1` on the example record removes it, and
toggling a fresh identifier on the empty (absent) record adds it. -/
theorem toggleFavorite_flips_membership_witness :
    allTrueB (favRead (some favEx)) = true ∧
    jsGet (favRead (toggleFavoriteOp true (some uidEx) (some favEx) adIdEx).1) adIdEx
      = none := by
  refine ⟨by decide, ?_⟩
  exact (toggleFavorite_flips_membership uidEx (some favEx) adIdEx (by decide)).2.1
    (by decide)

/-- C5: for every identity, listing identifier and starting favorites state
whose values are all boolean-true markers (an absent record read as empty),
performing the toggle operation twice in sequence on the same identifier
returns the stored favorites set to its original state: every key reads back
to exactly its original value. -/
theorem toggleFavorite_twice_restores (uid : String) (fav : Option FavMap)
    (adId : String) (h : allTrueB (favRead fav) = true) (k : String) :
    jsGet (favRead (toggleFavoriteOp true (some uid)
        (toggleFavoriteOp true (some uid) fav adId).1 adId).1) k
      = jsGet (favRead fav) k := by
  simp only [toggleFavoriteOp_authed, favRead, Option.getD_some]
  exact toggleCore_involutive h adId k

/-- Witness for C5: on the example record, toggling `ad-1` twice leaves every
key (checked at `ad-1` itself) reading back its original value. -/
theorem toggleFavorite_twice_restores_witness :
    allTrueB (favRead (some favEx)) = true ∧
    jsGet (favRead (toggleFavoriteOp true (some uidEx)
        (toggleFavoriteOp true (some uidEx) (some favEx) adIdEx).1 adIdEx).1) adIdEx
      = jsGet (favRead (some favEx)) adIdEx := by
  exact ⟨by decide, toggleFavorite_twice_restores uidEx (some favEx) adIdEx (by decide) adIdEx⟩

/-- C10: starting from any favorites record whose values are all the boolean
`true` (or from an absent record, read as empty), the toggle transaction
writes back a record whose values are again all `true` (keys are either set
to `true` or deleted); consequently the join's strict check `=== true`
coincides with key membership in the record. -/
theorem toggle_preserves_allTrue (fav : Option FavMap) (adId : String)
    (h : allTrueB (favRead fav) = true) :
    allTrueB (toggleCore (favRead fav) adId) = true ∧
    (∀ k, jsIsTrue (jsGet (favRead fav) k)
        = decide (k ∈ favKeys (favRead fav))) := by
  constructor
  · unfold toggleCore
    by_cases ht : jsTruthy (jsGet (favRead fav) adId) = true
    · rw [if_pos ht]
      exact allTrueB_delKey h adId
    · rw [if_neg ht]
      exact allTrueB_setKey_true h adId
  · intro k
    exact jsIsTrue_eq_mem h k

/-- Witness for C10: the example record is all-`true`, stays all-`true` after
a toggle, and its strict check agrees with key membership at `ad-1`. -/
theorem toggle_preserves_allTrue_witness :
    allTrueB (favRead (some favEx)) = true ∧
    allTrueB (toggleCore (favRead (some favEx)) adIdEx) = true ∧
    jsIsTrue (jsGet (favRead (some favEx)) adIdEx)
      = decide (adIdEx ∈ favKeys (favRead (some favEx))) := by
  have h := toggle_preserves_allTrue (some favEx) adIdEx (by decide)
  exact ⟨by decide, h.1, h.2 adIdEx⟩

/-- C3: for every listing in the latest listing emission and the latest
favorites emission (a record whose values are all boolean-true markers, as
the program maintains), the derived `isSaved` flag equals membership of the
listing's identifier in the favorites membership set; the join
`adsWithFavorites` is a pure function of exactly these two emissions. -/
theorem adsWithFavorites_isSaved_iff_member (ads : List Ad) (favorites : FavMap)
    (h : allTrueB favorites = true) (p : Ad × Bool)
    (hp : p ∈ adsWithFavorites ads favorites) :
    p.2 = decide (p.1.id ∈ favKeys favorites) := by
  unfold adsWithFavorites at hp
  rw [List.mem_map] at hp
  obtain ⟨ad, _, rfl⟩ := hp
  exact jsIsTrue_eq_mem h ad.id

/-- Witness for C3: on the example listings and record, the first listing's
`isSaved` flag equals membership of its id in the record's key set. -/
theorem adsWithFavorites_isSaved_iff_member_witness :
    allTrueB favEx = true ∧
    (adEx, jsIsTrue (jsGet favEx adEx.id)) ∈ adsWithFavorites [adEx, adEx2] favEx ∧
    (adEx, jsIsTrue (jsGet favEx adEx.id)).2
      = decide ((adEx, jsIsTrue (jsGet favEx adEx.id)).1.id ∈ favKeys favEx) := by
  refine ⟨by decide, ?_, ?_⟩
  · simp [adsWithFavorites]
  · exact adsWithFavorites_isSaved_iff_member [adEx, adEx2] favEx (by decide)
      (adEx, jsIsTrue (jsGet favEx adEx.id)) (by simp [adsWithFavorites])

/-- C1: every listing in the view produced by the query engine satisfies all
four predicates simultaneously: it has the requested category (when one is
given and is not the sentinel), its price is at least the given minimum and
at most the given maximum, and the case-insensitive search term occurs in its
title, description or location (when the term is non-empty). Since this holds
of every member, no listing violating any predicate appears in the view. -/
theorem useAdsView_satisfies_filters (qs : QueryState) (snapshot : List Ad)
    (ad : Ad) (h : ad ∈ useAdsView qs snapshot) :
    (∀ c, qs.category = some c → c ≠ allCategoriesSentinel → ad.category = c) ∧
    (∀ p, qs.minPrice = some p → p ≤ ad.price) ∧
    (∀ p, qs.maxPrice = some p → ad.price ≤ p) ∧
    (qs.search ≠ "" →
      (jsIncludes (jsToLower ad.title) (jsToLower qs.search) ||
       jsIncludes (jsToLower ad.description) (jsToLower qs.search) ||
       jsIncludes (jsToLower ad.location) (jsToLower qs.search)) = true) := by
  unfold useAdsView at h
  rw [(List.perm_insertionSort newestFirst _).mem_iff, List.mem_filter] at h
  obtain ⟨h1, hfine⟩ := h
  rw [List.mem_filter] at h1
  obtain ⟨_, hcoarse⟩ := h1
  rw [show runCoarse (coarseQuery qs) ad
        = ((match (coarseQuery qs).categoryEq with
            | some c => ad.category == c
            | none => true) &&
           (match (coarseQuery qs).priceGe with
            | some p => decide (p ≤ ad.price)
            | none => true)) from rfl, Bool.and_eq_true] at hcoarse
  rw [show finePred qs ad = (searchMatch qs.search ad && maxPriceMatch qs.maxPrice ad)
        from rfl, Bool.and_eq_true] at hfine
  refine ⟨?_, ?_, ?_, ?_⟩
  · intro c hc hcs
    have := hcoarse.1
    rw [show (coarseQuery qs).categoryEq
          = (match qs.category with
             | some c => if c = allCategoriesSentinel then none else some c
             | none => none) from rfl, hc] at this
    simp only [hcs, if_false] at this
    exact eq_of_beq this
  · intro p hp
    have := hcoarse.2
    rw [show (coarseQuery qs).priceGe = qs.minPrice from rfl, hp] at this
    exact of_decide_eq_true this
  · intro p hp
    have := hfine.2
    unfold maxPriceMatch at this
    rw [hp] at this
    exact of_decide_eq_true this
  · intro hs
    have hsm := hfine.1
    unfold searchMatch at hsm
    simp only [Bool.or_eq_true, beq_iff_eq] at hsm
    simp only [Bool.or_eq_true]
    rcases hsm with ((hempty | hT) | hD) | hL
    · exact absurd hempty hs
    · exact Or.inl (Or.inl hT)
    · exact Or.inl (Or.inr hD)
    · exact Or.inr hL

/-- Witness for C1: the example listing is a member of the view produced for
the example filter specification over a two-listing snapshot, and satisfies
all four predicates there. -/
theorem useAdsView_satisfies_filters_witness :
    adEx ∈ useAdsView qsEx [adEx2, adEx] ∧
    adEx.category = catElectronics ∧ (1000 : Int) ≤ adEx.price ∧
    adEx.price ≤ (10000 : Int) ∧
    (jsIncludes (jsToLower adEx.title) (jsToLower qsEx.search) ||
     jsIncludes (jsToLower adEx.description) (jsToLower qsEx.search) ||
     jsIncludes (jsToLower adEx.location) (jsToLower qsEx.search)) = true := by
  have hmem : adEx ∈ useAdsView qsEx [adEx2, adEx] := by decide
  have h := useAdsView_satisfies_filters qsEx [adEx2, adEx] adEx hmem
  refine ⟨hmem, h.1 catElectronics (by decide) (by decide), ?_, ?_, ?_⟩
  · exact h.2.1 1000 (by decide)
  · exact h.2.2.1 10000 (by decide)
  · exact h.2.2.2 (by decide)

/-- C4: the view produced by the query engine is sorted by creation timestamp
descending: every pair of adjacent listings `(a, b)` in the output satisfies
`b.tsSeconds ≤ a.tsSeconds` (most recent first). -/
theorem useAdsView_sorted_desc (qs : QueryState) (snapshot : List Ad) :
    List.Chain' (fun a b : Ad => b.tsSeconds ≤ a.tsSeconds)
      (useAdsView qs snapshot) := by
  apply List.Pairwise.chain'
  have hp := List.sorted_insertionSort newestFirst
    ((snapshot.filter (runCoarse (coarseQuery qs))).filter (finePred qs))
  unfold useAdsView
  exact hp.imp (fun hab => hab)

/-- C6: a listing can be deleted only by its owner. For any identity other
than the owner, the delete control in `AdDetails` is absent and the listing
remains in the store (the only path to `deleteAd` is through that control);
the control is rendered exactly for the owner identity. -/
theorem delete_only_by_owner (u : Option String) (store : List Ad) (ad : Ad)
    (h : u ≠ some ad.userId) :
    deleteControlShown u ad = false ∧ uiDelete u store ad = store ∧
    deleteControlShown (some ad.userId) ad = true := by
  have hshown : deleteControlShown u ad = false := by
    unfold deleteControlShown
    cases u with
    | none => rfl
    | some x =>
        have hx : x ≠ ad.userId := fun hx => h (by rw [hx])
        simp [hx]
  refine ⟨hshown, ?_, ?_⟩
  · unfold uiDelete
    rw [hshown]
    simp
  · unfold deleteControlShown
    simp

/-- Witness for C6: the non-owner identity sees no delete control and the
listing stays in the store, while the owner identity sees the control. -/
theorem delete_only_by_owner_witness :
    deleteControlShown (some otherUid) adEx = false ∧
    uiDelete (some otherUid) [adEx] adEx = [adEx] ∧
    deleteControlShown (some adEx.userId) adEx = true := by
  exact delete_only_by_owner (some otherUid) [adEx] adEx (by decide)

/-- C7: every listing created via the post operation has a non-negative
integer price. When the submitted price satisfies the constraints of the
price input element (`min="0"`, the number input's integral default step),
`handleSubmit` passes the `parseFloat` value unchanged through `postAd`, so
the stored price is non-negative, has denominator 1, and equals its integer
numerator — always interpretable as an integer for `formatPrice`. -/
theorem posted_price_nonneg_integer (uid : String) (fd : AdFormData)
    (h : priceInputOk fd.price) :
    ∃ ad : PostedAd, (handleSubmit true (some uid) fd).1 = some ad ∧
      0 ≤ ad.price ∧ ad.price.den = 1 ∧ (ad.price.num : Rat) = ad.price := by
  refine ⟨postAd uid
    { fd with imageUrl := if fd.imageUrl = "" then placeholderImage else fd.imageUrl },
    rfl, ?_, ?_, ?_⟩
  · exact h.1
  · exact h.2
  · exact (Rat.den_eq_one_iff fd.price).mp h.2

/-- Witness for C7: posting the example form (price 5000) stores a
non-negative integer price. -/
theorem posted_price_nonneg_integer_witness :
    priceInputOk fdEx.price ∧
    (∃ ad : PostedAd, (handleSubmit true (some uidEx) fdEx).1 = some ad ∧
      0 ≤ ad.price ∧ ad.price.den = 1 ∧ (ad.price.num : Rat) = ad.price) :=
  ⟨by decide, posted_price_nonneg_integer uidEx fdEx (by decide)⟩

/-- Counterexample to C8 as stated: with only the maximum price changed
(10000 to 4000), the coarse query object is unchanged, but the ads effect's
dependency array (src/script.js line 136) lists `queryState.maxPrice`, so the
effect re-runs — tearing down the subscription and issuing a new store
query — contrary to the claim that no new store query is issued. -/
theorem maxPrice_change_reissues_query :
    qsEx.category = qsExLowMax.category ∧ qsEx.minPrice = qsExLowMax.minPrice ∧
    qsEx.search = qsExLowMax.search ∧ qsEx.maxPrice ≠ qsExLowMax.maxPrice ∧
    coarseQuery qsEx = coarseQuery qsExLowMax ∧
    adsEffectDeps true true (some uidEx) qsEx
      ≠ adsEffectDeps true true (some uidEx) qsExLowMax := by
  refine ⟨rfl, rfl, rfl, by decide, by decide, by decide⟩

/-- C8 (amended): the coarse predicate sent to the store is a function only of
the category and minimum-price fields of the filter specification — two
specifications agreeing on those fields produce identical store queries, and
maximum price and search term are applied only by the client-side re-filter.
(As stated the claim fails: the subscription effect re-runs when the maximum
price or search term changes, re-issuing an identical store query.) -/
theorem coarseQuery_only_category_minPrice (qs qs' : QueryState)
    (hc : qs.category = qs'.category) (hm : qs.minPrice = qs'.minPrice) :
    coarseQuery qs = coarseQuery qs' := by
  unfold coarseQuery
  rw [hc, hm]

/-- Witness for C8 (amended): the two example specifications differ only in
the maximum price and produce the same coarse query. -/
theorem coarseQuery_only_category_minPrice_witness :
    qsEx.category = qsExLowMax.category ∧ qsEx.minPrice = qsExLowMax.minPrice ∧
    coarseQuery qsEx = coarseQuery qsExLowMax :=
  ⟨rfl, rfl, coarseQuery_only_category_minPrice qsEx qsExLowMax rfl rfl⟩

/-- Counterexample to C9 as stated: a favorites toggle attempted without an
established identity is rejected locally as a no-op (the stored record is
untouched) but surfaces NO message to the caller — `toggleFavorite` returns
silently — contradicting that every such operation is surfaced with a
message. -/
theorem toggle_without_identity_is_silent :
    (toggleFavoriteOp true none (some favEx) adIdEx).1 = some favEx ∧
    (toggleFavoriteOp true none (some favEx) adIdEx).2 = none := by
  decide

/-- C9 (amended): operations attempted without an established identity are
rejected locally before reaching the store and leave the stored state
untouched; the post operation surfaces an error message to the caller, while
the favorites toggle is silently ignored with no message. -/
theorem unauthenticated_ops_local_noop (fav : Option FavMap) (adId : String)
    (fd : AdFormData) :
    toggleFavoriteOp true none fav adId = (fav, none) ∧
    (handleSubmit true none fd).1 = none ∧
    (handleSubmit true none fd).2 = some loginErrorMsg := by
  refine ⟨?_, rfl, rfl⟩
  unfold toggleFavoriteOp
  simp
